import Mathlib

/-!
Shallow embedding of the transcription pipeline
(`gemini_multi_transcribe.py`, `transcribe_3.py`, `gemini_transcribe.py`).

Strings are modelled as `List Char`.  Python `str.split()` (split on runs of
ASCII whitespace, dropping empties), `" ".join`, `str.replace` (all
non-overlapping occurrences, left to right) and the code-switch classifier
are translated directly from the source.  External effects (Gemini calls,
Selenium, sleeps) are modelled as explicit outcome parameters; wall-clock
cooldowns are not modelled, only the control flow they sit in.
-/

namespace Spec

/-- Whitespace characters recognised by Python `str.split()` (ASCII range). -/
def isWs (c : Char) : Bool :=
  c = ' ' || c = '\t' || c = '\n' || c = '\r' || c = '\x0b' || c = '\x0c'

/-- Accumulator worker for `splitWs`: `acc` holds the reversed current word. -/
def splitWsAcc : List Char → List Char → List (List Char)
  | acc, [] => if acc.isEmpty then [] else [acc.reverse]
  | acc, c :: cs =>
    if isWs c then
      if acc.isEmpty then splitWsAcc [] cs else acc.reverse :: splitWsAcc [] cs
    else
      splitWsAcc (c :: acc) cs

/-- Python `text.split()`: split on whitespace runs, dropping empty pieces. -/
def splitWs (s : List Char) : List (List Char) :=
  splitWsAcc [] s

/-- Python `" ".join(words)`. -/
def joinSp : List (List Char) → List Char
  | [] => []
  | [w] => w
  | w :: ws => w ++ ' ' :: joinSp ws

/-- Python `" ".join(s.split())`: collapse whitespace runs and trim. -/
def collapseWs (s : List Char) : List Char :=
  joinSp (splitWs s)

/-- Does `pat` occur as a contiguous substring of the second argument? -/
def occursIn (pat : List Char) : List Char → Bool
  | [] => pat.isEmpty
  | c :: cs => pat.isPrefixOf (c :: cs) || occursIn pat cs

/-- Fuelled worker for `replaceAll`.  Each step either consumes
`pat.length ≥ 1` characters (match) or one character (no match), so fuel
equal to the input length always suffices for a nonempty pattern; the
fuel-exhausted branch is unreachable then. -/
def replaceAllAux (pat repl : List Char) : Nat → List Char → List Char
  | _, [] => []
  | 0, s => s
  | n + 1, c :: cs =>
    if pat.isPrefixOf (c :: cs) then
      repl ++ replaceAllAux pat repl n (List.drop pat.length (c :: cs))
    else
      c :: replaceAllAux pat repl n cs

/-- Python `s.replace(pat, repl)`: replace all non-overlapping occurrences,
scanning left to right. -/
def replaceAll (pat repl s : List Char) : List Char :=
  replaceAllAux pat repl s.length s

/-- Hallucination artifacts removed by `transcribe_audio` in
`gemini_multi_transcribe.py` (lines 296-310), in source order. -/
def artifacts : List (List Char) :=
  [("Here is the transcription:".data),
   ("Transcription:".data),
   ("**Transcription:**".data),
   ("The transcription is:".data),
   ("Here you go:".data),
   ("[Music]".data), ("[music]".data),
   ("[Applause]".data), ("[applause]".data),
   ("♪".data), ("♫".data), ("♬".data),
   ("Thank you for watching".data),
   ("Thanks for watching".data),
   ("Please subscribe".data),
   ("Like and subscribe".data),
   ("Don\x27t forget to".data)]

/-- The artifact-removal loop: `for artifact in artifacts:
transcription = transcription.replace(artifact, "")`. -/
def removeArtifacts (s : List Char) : List Char :=
  artifacts.foldl (fun t a => replaceAll a [] t) s

/-- The text normalizer of `gemini_multi_transcribe.py` lines 296-319:
artifact removal, then `replace("**","").replace("*","")`, then
`" ".join(split())`. -/
def normalize (s : List Char) : List Char :=
  collapseWs (replaceAll ['*'] [] (replaceAll ['*', '*'] [] (removeArtifacts s)))

/-- Python `\w` over the ASCII range (the transcripts handled are ASCII). -/
def isWordChar (c : Char) : Bool :=
  c.isAlpha || c.isDigit || c = '_'

/-- The apostrophe character, kept by the cleaning regex. -/
def apos : Char := Char.ofNat 39

/-- Python `re.sub(r"[^\w']+", "", word).lower()`: strip every character
that is neither a word character nor an apostrophe, then lower-case. -/
def cleanWord (w : List Char) : List Char :=
  (w.filter (fun c => isWordChar c || c = apos)).map Char.toLower

/-- Split a cleaned word into its maximal word-character runs.  A cleaned
word contains only word characters and apostrophes, so after cleaning the
apostrophes are exactly the `\b` boundaries inside the word. -/
def splitAposAcc : List Char → List Char → List (List Char)
  | acc, [] => [acc.reverse]
  | acc, c :: cs =>
    if c = apos then acc.reverse :: splitAposAcc [] cs
    else splitAposAcc (c :: acc) cs

/-- `english_pattern.search(word_clean)`: the regex alternatives are whole
words of word characters wrapped in `\b..\b`, and `word_clean` holds only
word characters and apostrophes, so the regex matches iff one maximal
word-character run of `word_clean` equals a listed word (case folded away:
the list is lower-case and `word_clean` is already lower-cased). -/
def englishMatch (eng : List (List Char)) (wc : List Char) : Bool :=
  (splitAposAcc [] wc).any (fun seg => eng.contains seg)

/-- `word_clean.endswith(("ing", "ed", "tion", "ment"))`. -/
def engSuffix (wc : List Char) : Bool :=
  ("ing".data).isSuffixOf wc || ("ed".data).isSuffixOf wc ||
  ("tion".data).isSuffixOf wc || ("ment".data).isSuffixOf wc

/-- `any(c in word_clean for c in ['x', 'q'])`. -/
def hasXQ (wc : List Char) : Bool :=
  wc.contains 'x' || wc.contains 'q'

/-- The foreign/mixed-language test applied to a cleaned word. -/
def isForeign (eng : List (List Char)) (wc : List Char) : Bool :=
  englishMatch eng wc || engSuffix wc || hasXQ wc

/-- `swahili_common` of `gemini_multi_transcribe.py` / `gemini_transcribe.py`
(line 354 / 267).  Python set membership is modelled by list membership. -/
def swahiliCommonM : List (List Char) :=
  ["na", "ya", "wa", "ni", "kwa", "la", "za", "katika", "kama",
   "au", "lakini", "pia", "sana", "tu", "kwenye", "bila", "hii",
   "hiyo", "hilo", "hao", "wale", "hawa", "mimi", "wewe", "yeye",
   "sisi", "ninyi", "wao", "nini", "nani", "wapi", "lini", "je",
   "cha", "vya", "nchi", "watu", "mtu", "yake", "yangu", "yetu",
   "moja", "mbili", "tatu", "nne", "tano", "ndiyo", "hapana"].map String.data

/-- `swahili_common` of `transcribe_3.py` (line 489): the previous set
extended by the words added there. -/
def swahiliCommon3 : List (List Char) :=
  swahiliCommonM ++
  (["sasa", "leo", "jana", "kesho", "wakati", "wengine", "ndani", "nje",
    "karibu", "kweli", "hapo", "hapa", "ule", "ile", "kila", "basi"].map String.data)

/-- The regex word list of `english_pattern` in `gemini_multi_transcribe.py`
(line 363) and `gemini_transcribe.py`. -/
def engWordsM : List (List Char) :=
  ["the", "is", "are", "was", "were", "have", "has", "had", "will", "would",
   "could", "should", "can", "may", "must", "do", "does", "did", "this",
   "that", "these", "those", "what", "where", "when", "why", "how", "who",
   "which", "and", "but", "or", "so", "because", "if", "then"].map String.data

/-- The regex word list of `english_indicators` in `transcribe_3.py`
(line 501): the previous list extended by the words added there. -/
def engWords3 : List (List Char) :=
  engWordsM ++
  (["okay", "sure", "yes", "no", "maybe", "thanks", "morning", "afternoon",
    "evening"].map String.data)

/-- The literal marker prefixed to foreign tokens. -/
def csMark : List Char := "[cs]".data

/-- One iteration of the per-word loop of `detect_code_switching`: the
entries this word contributes to the `processed_words` list.  When the word
is classified foreign, `strict` drops it (`continue`) and non-strict mode
appends `f"[cs] {word}"`. -/
def processWord (stop eng : List (List Char)) (strict : Bool) (w : List Char) :
    List (List Char) :=
  let wc := cleanWord w
  if wc.isEmpty || stop.contains wc then [w]
  else if isForeign eng wc then
    (if strict then [] else [csMark ++ ' ' :: w])
  else [w]

/-- `detect_code_switching(text, strict_swahili)` of `transcribe_3.py`
lines 480-530: split on whitespace, process each token, rejoin with single
spaces. -/
def detect_code_switching (text : List Char) (strict : Bool) : List Char :=
  joinSp ((splitWs text).flatMap (processWord swahiliCommon3 engWords3 strict))

/-- `detect_code_switching(text)` of `gemini_multi_transcribe.py`
lines 350-388: same loop with the smaller word lists and marking only. -/
def detectCodeSwitchingM (text : List Char) : List Char :=
  joinSp ((splitWs text).flatMap (processWord swahiliCommonM engWordsM false))

/-- Does the per-word loop mark this word (non-strict mode)? -/
def isMarkedWord (stop eng : List (List Char)) (w : List Char) : Bool :=
  let wc := cleanWord w
  !(wc.isEmpty || stop.contains wc) && isForeign eng wc

/-- The ordered model list `self.model_names` of `gemini_multi_transcribe.py`
(line 38). -/
def modelNames : List (List Char) :=
  ["models/gemini-2.0-flash-lite",
   "models/gemini-2.0-flash",
   "models/gemini-2.5-flash-lite",
   "models/gemini-2.5-flash",
   "models/gemini-2.0-flash-exp"].map String.data

/-- Rotation state of the controller: `self.current_model_index` and
`self.model_retry_count` (a name-keyed map, total with default 0 since the
code inserts a 0 entry before incrementing). -/
structure RotState where
  idx : Nat
  counts : List Char → Nat

/-- `switch_to_next_model` (`gemini_multi_transcribe.py` lines 74-98):
advance the index modulo the list length and increment the switch count of
the model switched to. -/
def switch_to_next_model (names : List (List Char)) (s : RotState) : RotState :=
  let i := (s.idx + 1) % names.length
  let name := names.getD i []
  { idx := i, counts := fun n => if n = name then s.counts n + 1 else s.counts n }

/-- `str(e).lower()` followed by the substring tests of line 328. -/
def lowerStr (s : List Char) : List Char := s.map Char.toLower

/-- Quota-exhaustion classification of `transcribe_audio`
(`gemini_multi_transcribe.py` line 328). -/
def isQuotaError (msg : List Char) : Bool :=
  occursIn ("rate limit".data) (lowerStr msg) ||
  occursIn ("429".data) (lowerStr msg) ||
  occursIn ("quota".data) (lowerStr msg) ||
  occursIn ("resource_exhausted".data) (lowerStr msg)

/-- Outcome of one provider attempt inside the `try` of `transcribe_audio`:
the generation returned text, the uploaded file ended in state FAILED
(early `return None`), or an exception with the given message was raised. -/
inductive Attempt where
  | success (t : List Char)
  | procFailed
  | raise (msg : List Char)
deriving DecidableEq

/-- `transcribe_audio(audio_file, retry_count)` of
`gemini_multi_transcribe.py` lines 209-348, driven by a trace of provider
attempt outcomes.  Returns `(result, final rotation state, number of
switch_to_next_model calls)`; `none` models nontermination (fuel spent or
trace exhausted).  `max_retries = len(self.model_names)`.  On a quota
error: below `max_retries` switch and recurse with `retry_count + 1`;
otherwise (after the 60 s sleep, not modelled) set the index to 0, switch
once more, and recurse with `retry_count = 0`.  Any other exception returns
`None` at once. -/
def transcribe_audio (names : List (List Char)) :
    Nat → RotState → Nat → List Attempt →
    Option (Option (List Char) × RotState × Nat)
  | 0, _, _, _ => none
  | _ + 1, _, _, [] => none
  | fuel + 1, s, retry, a :: rest =>
    match a with
    | .success t => some (some t, s, 0)
    | .procFailed => some (none, s, 0)
    | .raise msg =>
      if isQuotaError msg then
        if retry < names.length then
          (transcribe_audio names fuel (switch_to_next_model names s) (retry + 1) rest).map
            (fun r => (r.1, r.2.1, r.2.2 + 1))
        else
          (transcribe_audio names fuel
              (switch_to_next_model names { s with idx := 0 }) 0 rest).map
            (fun r => (r.1, r.2.1, r.2.2 + 1))
      else
        some (none, s, 0)

/-- Result of a call into an external collaborator: a returned value, or an
exception escaping the call (e.g. `KeyboardInterrupt`). -/
inductive StepRes (α : Type) where
  | ret (a : α)
  | exc
deriving DecidableEq

/-- What one run of `process_audio` did: its outcome (`ret b` for
`return b`, `exc` for an escaping exception), how many times
`self.audio_count` was incremented, and how many times `os.unlink` was
called on the downloaded file. -/
structure UnitResult where
  res : StepRes Bool
  countDelta : Nat
  unlinks : Nat
deriving DecidableEq

/-- `process_audio` of `gemini_multi_transcribe.py` lines 462-503.
`self.audio_count += 1` runs first; `get_audio_url` and `download_audio`
failures return early before the temp file exists; afterwards the body runs
inside `try ... finally os.unlink(audio_file)`, so the unlink call happens
on every exit of the body, value or exception.  `tr` is the outcome of
`transcribe_audio`, `ins` of `insert_transcription` applied to the
code-switch-annotated text, `wait` of `wait_for_submit`. -/
def process_audio (url : Option (List Char)) (dl : Option (List Char))
    (tr : StepRes (Option (List Char))) (ins : List Char → StepRes Bool)
    (wait : StepRes Bool) : UnitResult :=
  match url with
  | none => { res := .ret false, countDelta := 1, unlinks := 0 }
  | some _ =>
    match dl with
    | none => { res := .ret false, countDelta := 1, unlinks := 0 }
    | some _ =>
      let body : StepRes Bool :=
        match tr with
        | .exc => .exc
        | .ret none => .ret false
        | .ret (some t) =>
          match ins (detectCodeSwitchingM t) with
          | .exc => .exc
          | .ret false => .ret false
          | .ret true => wait
      { res := body, countDelta := 1, unlinks := 1 }

/-- One poll iteration of `wait_for_submit` (lines 436-453): the textarea
was observed cleared, the URL was observed changed, or nothing changed. -/
inductive PollObs where
  | cleared
  | urlChanged
  | noChange
deriving DecidableEq

/-- `wait_for_submit` of `gemini_multi_transcribe.py` lines 420-460, driven
by the finite trace of observations made inside the bounded (600 s) wait:
`true` on the first submission signal, `false` when the window elapses with
the trace exhausted. -/
def wait_for_submit : List PollObs → Bool
  | [] => false
  | .cleared :: _ => true
  | .urlChanged :: _ => true
  | .noChange :: rest => wait_for_submit rest

/-- One iteration of the `while True` loop of `run`
(`gemini_multi_transcribe.py` lines 527-547): `process_audio` returned
`True`, returned `False` (paired with the operator's answer to the
`Try again? (y/n)` prompt, `true` meaning `y`), raised
`KeyboardInterrupt`, or raised some other exception. -/
inductive IterOut where
  | okTrue
  | okFalse (retryAns : Bool)
  | kb
  | err
deriving DecidableEq

/-- Why the `run` loop exited. -/
inductive ExitReason where
  | declined
  | interrupted
  | traceEnd
deriving DecidableEq

/-- The `while True` loop of `run`: returns how many `process_audio` calls
were made and why the loop exited.  A failed unit continues only when the
operator answers `y`; `KeyboardInterrupt` breaks; any other exception is
caught and the loop continues. -/
def runLoop : List IterOut → Nat × ExitReason
  | [] => (0, .traceEnd)
  | .okTrue :: rest => ((runLoop rest).1 + 1, (runLoop rest).2)
  | .okFalse true :: rest => ((runLoop rest).1 + 1, (runLoop rest).2)
  | .okFalse false :: _ => (1, .declined)
  | .kb :: _ => (1, .interrupted)
  | .err :: rest => ((runLoop rest).1 + 1, (runLoop rest).2)

/-! ### Lemmas about whitespace splitting and joining -/

theorem splitWsAcc_append_space (x : List Char) :
    ∀ (acc : List Char) (y : List Char),
      splitWsAcc acc (x ++ ' ' :: y) = splitWsAcc acc x ++ splitWsAcc [] y := by
  induction x with
  | nil =>
    intro acc y
    have hsp : isWs ' ' = true := rfl
    by_cases h : acc.isEmpty <;> simp [splitWsAcc, hsp, h]
  | cons c cs ih =>
    intro acc y
    cases hc : isWs c with
    | true =>
      by_cases h : acc.isEmpty <;> simp [splitWsAcc, hc, h, ih]
    | false =>
      simp [splitWsAcc, hc, ih]

theorem splitWs_append_space (x y : List Char) :
    splitWs (x ++ ' ' :: y) = splitWs x ++ splitWs y :=
  splitWsAcc_append_space x [] y

theorem splitWs_joinSp (L : List (List Char)) :
    splitWs (joinSp L) = L.flatMap splitWs := by
  induction L with
  | nil => rfl
  | cons w ws ih =>
    cases ws with
    | nil => simp [joinSp]
    | cons v vs =>
      have hj : joinSp (w :: v :: vs) = w ++ ' ' :: joinSp (v :: vs) := rfl
      rw [hj, splitWs_append_space, ih]
      simp [List.flatMap_cons]

theorem splitWsAcc_no_ws (w : List Char) :
    ∀ acc : List Char, (∀ c ∈ w, isWs c = false) →
      splitWsAcc acc w
        = if acc.isEmpty && w.isEmpty then [] else [acc.reverse ++ w] := by
  induction w with
  | nil =>
    intro acc _
    by_cases h : acc.isEmpty <;> simp [splitWsAcc, h]
  | cons c cs ih =>
    intro acc h
    have hc : isWs c = false := h c (by simp)
    rw [show splitWsAcc acc (c :: cs)
          = if isWs c then
              (if acc.isEmpty then splitWsAcc [] cs else acc.reverse :: splitWsAcc [] cs)
            else splitWsAcc (c :: acc) cs from rfl]
    rw [hc]
    simp only [Bool.false_eq_true, if_false]
    rw [ih (c :: acc) (fun d hd => h d (by simp [hd]))]
    simp

theorem splitWs_word (w : List Char) (hne : w ≠ [])
    (hnws : ∀ c ∈ w, isWs c = false) : splitWs w = [w] := by
  rw [splitWs, splitWsAcc_no_ws w [] hnws]
  simp [hne]

theorem splitWsAcc_words_sound (s : List Char) :
    ∀ acc : List Char, (∀ c ∈ acc, isWs c = false) →
      ∀ w ∈ splitWsAcc acc s, w ≠ [] ∧ ∀ c ∈ w, isWs c = false := by
  induction s with
  | nil =>
    intro acc hacc w hw
    by_cases h : acc.isEmpty
    · simp [splitWsAcc, h] at hw
    · simp [splitWsAcc, h] at hw
      subst hw
      refine ⟨fun hrev => ?_, fun c hc => hacc c (by simpa using hc)⟩
      rw [List.isEmpty_iff] at h
      exact h (by simpa using congrArg List.reverse hrev)
  | cons c cs ih =>
    intro acc hacc w hw
    cases hc : isWs c with
    | true =>
      by_cases h : acc.isEmpty
      · simp [splitWsAcc, hc, h] at hw
        exact ih [] (by simp) w hw
      · simp [splitWsAcc, hc, h] at hw
        rcases hw with hw | hw
        · subst hw
          refine ⟨fun hrev => ?_, fun d hd => hacc d (by simpa using hd)⟩
          rw [List.isEmpty_iff] at h
          exact h (by simpa using congrArg List.reverse hrev)
        · exact ih [] (by simp) w hw
    | false =>
      simp only [splitWsAcc, hc, Bool.false_eq_true, if_false] at hw
      refine ih (c :: acc) ?_ w hw
      intro d hd
      rcases List.mem_cons.mp hd with hd | hd
      · simpa [hd] using hc
      · exact hacc d hd

theorem splitWs_words_sound (s : List Char) :
    ∀ w ∈ splitWs s, w ≠ [] ∧ ∀ c ∈ w, isWs c = false :=
  splitWsAcc_words_sound s [] (by simp)

theorem splitWs_joinSp_words (L : List (List Char))
    (h : ∀ w ∈ L, w ≠ [] ∧ ∀ c ∈ w, isWs c = false) :
    splitWs (joinSp L) = L := by
  rw [splitWs_joinSp]
  induction L with
  | nil => rfl
  | cons w ws ih =>
    rw [List.flatMap_cons,
        splitWs_word w (h w (by simp)).1 (h w (by simp)).2,
        ih (fun v hv => h v (by simp [hv]))]
    rfl

theorem collapseWs_idem (s : List Char) : collapseWs (collapseWs s) = collapseWs s := by
  show joinSp (splitWs (joinSp (splitWs s))) = collapseWs s
  rw [splitWs_joinSp_words (splitWs s) (splitWs_words_sound s)]
  rfl

/-! ### Lemmas about substring replacement -/

theorem replaceAllAux_not_occurs (pat repl : List Char) :
    ∀ (n : Nat) (s : List Char), occursIn pat s = false →
      replaceAllAux pat repl n s = s := by
  intro n
  induction n with
  | zero => intro s _; cases s <;> rfl
  | succ n ih =>
    intro s h
    cases s with
    | nil => rfl
    | cons c cs =>
      rw [occursIn, Bool.or_eq_false_iff] at h
      rw [show replaceAllAux pat repl (n + 1) (c :: cs)
            = if pat.isPrefixOf (c :: cs) then
                repl ++ replaceAllAux pat repl n (List.drop pat.length (c :: cs))
              else c :: replaceAllAux pat repl n cs from rfl]
      rw [h.1]
      simp only [Bool.false_eq_true, if_false]
      rw [ih cs h.2]

theorem replaceAll_not_occurs (pat repl s : List Char)
    (h : occursIn pat s = false) : replaceAll pat repl s = s :=
  replaceAllAux_not_occurs pat repl s.length s h

theorem foldl_replace_id (L : List (List Char)) :
    ∀ s : List Char, (∀ a ∈ L, occursIn a s = false) →
      L.foldl (fun t a => replaceAll a [] t) s = s := by
  induction L with
  | nil => intro s _; rfl
  | cons a L ih =>
    intro s h
    rw [List.foldl_cons, replaceAll_not_occurs a [] s (h a (by simp))]
    exact ih s (fun b hb => h b (by simp [hb]))

/-! ### Lemmas about the code-switch annotator -/

theorem csMark_word : csMark ≠ [] ∧ ∀ c ∈ csMark, isWs c = false := by decide

theorem processWord_splitWs (stop eng : List (List Char)) (w : List Char)
    (hne : w ≠ []) (hnws : ∀ c ∈ w, isWs c = false) :
    (processWord stop eng false w).flatMap splitWs
      = if isMarkedWord stop eng w = true then [csMark, w] else [w] := by
  simp only [processWord, isMarkedWord]
  have hsplit : splitWs (csMark ++ ' ' :: w) = [csMark, w] := by
    rw [splitWs_append_space, splitWs_word csMark csMark_word.1 csMark_word.2,
        splitWs_word w hne hnws]
    rfl
  have hw : splitWs w = [w] := splitWs_word w hne hnws
  by_cases hA : cleanWord w = [] <;>
    by_cases hB : cleanWord w ∈ stop <;>
      by_cases hC : isForeign eng (cleanWord w) = true <;>
        simp [hA, hB, hC, hw, hsplit]

theorem tokens_of_words (stop eng : List (List Char)) :
    ∀ ws : List (List Char), (∀ w ∈ ws, w ≠ [] ∧ ∀ c ∈ w, isWs c = false) →
      splitWs (joinSp (ws.flatMap (processWord stop eng false)))
        = ws.flatMap (fun w => if isMarkedWord stop eng w = true then [csMark, w] else [w]) := by
  intro ws hws
  rw [splitWs_joinSp]
  induction ws with
  | nil => rfl
  | cons w ws ih =>
    rw [List.flatMap_cons, List.flatMap_append, List.flatMap_cons,
        processWord_splitWs stop eng w (hws w (by simp)).1 (hws w (by simp)).2,
        ih (fun v hv => hws v (by simp [hv]))]

theorem flatMap_mark_length (stop eng : List (List Char)) :
    ∀ ws : List (List Char),
      (ws.flatMap (fun w => if isMarkedWord stop eng w = true then [csMark, w] else [w])).length
        = ws.length + ws.countP (isMarkedWord stop eng) := by
  intro ws
  induction ws with
  | nil => rfl
  | cons w ws ih =>
    by_cases h : isMarkedWord stop eng w = true
    · simp [h, ih]
      omega
    · simp [h, ih]
      omega

theorem flatMap_mark_filter (stop eng : List (List Char)) :
    ∀ ws : List (List Char), csMark ∉ ws →
      ((ws.flatMap (fun w => if isMarkedWord stop eng w = true then [csMark, w] else [w])).filter
          (fun t => !(t == csMark))) = ws := by
  intro ws h
  induction ws with
  | nil => rfl
  | cons w ws ih =>
    have hw : ¬ w = csMark := fun e => h (by simp [e])
    have htail := ih (fun hin => h (by simp [hin]))
    by_cases hm : isMarkedWord stop eng w = true
    · simp [hm, List.filter_append, htail, hw]
    · simp [hm, List.filter_append, htail, hw]

theorem flatMap_mark_mem (stop eng : List (List Char)) (ws : List (List Char)) :
    ∀ t ∈ ws.flatMap (fun w => if isMarkedWord stop eng w = true then [csMark, w] else [w]),
      t = csMark ∨ t ∈ ws := by
  intro t ht
  rcases List.mem_flatMap.mp ht with ⟨w, hw, hin⟩
  by_cases hm : isMarkedWord stop eng w = true
  · rw [if_pos hm] at hin
    rcases List.mem_cons.mp hin with h | h
    · exact Or.inl h
    · exact Or.inr (by simpa using (List.mem_singleton.mp h ▸ hw))
  · rw [if_neg hm] at hin
    exact Or.inr (List.mem_singleton.mp hin ▸ hw)

theorem detect_tokens (text : List Char) :
    splitWs (detect_code_switching text false)
      = (splitWs text).flatMap
          (fun w => if isMarkedWord swahiliCommon3 engWords3 w = true then [csMark, w] else [w]) :=
  tokens_of_words swahiliCommon3 engWords3 (splitWs text) (splitWs_words_sound text)

/-! ### Lemmas about the rotation controller -/

theorem transcribe_quota_run (names : List (List Char)) (t : List Char) :
    ∀ (msgs : List (List Char)) (f : Nat) (s : RotState) (retry : Nat),
      (∀ m ∈ msgs, isQuotaError m = true) →
      retry + msgs.length ≤ names.length →
      transcribe_audio names (msgs.length + (f + 1)) s retry
          (msgs.map .raise ++ [.success t])
        = some (some t, (switch_to_next_model names)^[msgs.length] s, msgs.length) := by
  intro msgs
  induction msgs with
  | nil =>
    intro f s retry _ _
    simp [transcribe_audio]
  | cons m ms ih =>
    intro f s retry hq hle
    have hqm : isQuotaError m = true := hq m (by simp)
    have hretry : retry < names.length := by
      simp only [List.length_cons] at hle
      omega
    have hfuel : (m :: ms).length + (f + 1) = (ms.length + (f + 1)) + 1 := by
      simp only [List.length_cons]
      omega
    rw [hfuel]
    show transcribe_audio names ((ms.length + (f + 1)) + 1) s retry
        (.raise m :: (ms.map .raise ++ [.success t])) = _
    rw [show transcribe_audio names ((ms.length + (f + 1)) + 1) s retry
          (.raise m :: (ms.map .raise ++ [.success t]))
        = if isQuotaError m then
            (if retry < names.length then
              (transcribe_audio names (ms.length + (f + 1))
                  (switch_to_next_model names s) (retry + 1) (ms.map .raise ++ [.success t])).map
                (fun r => (r.1, r.2.1, r.2.2 + 1))
            else
              (transcribe_audio names (ms.length + (f + 1))
                  (switch_to_next_model names { s with idx := 0 }) 0 (ms.map .raise ++ [.success t])).map
                (fun r => (r.1, r.2.1, r.2.2 + 1)))
          else some (none, s, 0) from rfl]
    rw [if_pos hqm, if_pos hretry]
    rw [ih f (switch_to_next_model names s) (retry + 1)
          (fun x hx => hq x (by simp [hx])) (by simp only [List.length_cons] at hle; omega)]
    simp [Function.iterate_succ_apply]

theorem switch_iterate_idx (names : List (List Char)) (hne : names ≠ []) :
    ∀ (k : Nat) (s : RotState), s.idx < names.length →
      ((switch_to_next_model names)^[k] s).idx = (s.idx + k) % names.length := by
  intro k
  induction k with
  | zero =>
    intro s h
    simp [Nat.mod_eq_of_lt h]
  | succ k ih =>
    intro s h
    have hlen : 0 < names.length := List.length_pos.mpr hne
    have h1 : (switch_to_next_model names s).idx = (s.idx + 1) % names.length := rfl
    rw [Function.iterate_succ_apply,
        ih (switch_to_next_model names s) (by rw [h1]; exact Nat.mod_lt _ hlen),
        h1, Nat.mod_add_mod]
    congr 1
    omega

/-! ### Claim theorems -/

/-- Claim C1: for a configured list of N model descriptors, N consecutive
quota-exceeded provider results within one transcription call (started at
`retry_count = 0`) cause exactly N descriptor switches, and the rotation
index after those N switches equals the rotation index before them
(modulo N), so a call started on the first descriptor lands back on it. -/
theorem c1_rotation_cycle (names : List (List Char)) (msgs : List (List Char))
    (t : List Char) (f : Nat) (s : RotState)
    (hne : names ≠ []) (hidx : s.idx < names.length)
    (hq : ∀ m ∈ msgs, isQuotaError m = true)
    (hlen : msgs.length = names.length) :
    ∃ s2, transcribe_audio names (names.length + (f + 1)) s 0
            (msgs.map .raise ++ [.success t])
          = some (some t, s2, names.length)
        ∧ s2.idx = s.idx := by
  refine ⟨(switch_to_next_model names)^[msgs.length] s, ?_, ?_⟩
  · have h := transcribe_quota_run names t msgs f s 0 hq (by omega)
    rw [hlen] at h
    rw [h, hlen]
  · rw [switch_iterate_idx names hne msgs.length s hidx, hlen,
        Nat.add_mod_right]
    exact Nat.mod_eq_of_lt hidx

/-- Witness for C1: the five configured models, five quota errors, then a
success: five switches, and the index returns to 0. -/
theorem c1_rotation_cycle_witness :
    ∃ s2, transcribe_audio modelNames (modelNames.length + (0 + 1))
            { idx := 0, counts := fun _ => 0 } 0
            ((List.replicate 5 ("quota".data)).map .raise ++ [.success ("x".data)])
          = some (some ("x".data), s2, modelNames.length)
        ∧ s2.idx = 0 :=
  c1_rotation_cycle modelNames (List.replicate 5 ("quota".data)) ("x".data) 0
    { idx := 0, counts := fun _ => 0 } (by decide) (by decide) (by decide) (by decide)

/-- Claim C2 (amended): when a quota error arrives with the attempt count
equal to the descriptor count, the controller (after the fixed 60 s
cooldown, not modelled) resets the rotation index to 0, performs one forced
switch — which advances rotation to the SECOND descriptor (index 1) and
increments that descriptor's switch count — and retries the same call with
the attempt counter reset to zero, so the retry runs under the second
descriptor, not the first. -/
theorem c2_exhausted_reset (names : List (List Char)) (f : Nat) (s : RotState)
    (rest : List Attempt) (msg : List Char)
    (h2 : 2 ≤ names.length) (hq : isQuotaError msg = true) :
    transcribe_audio names (f + 1) s names.length (.raise msg :: rest)
      = (transcribe_audio names f
            (switch_to_next_model names { s with idx := 0 }) 0 rest).map
          (fun r => (r.1, r.2.1, r.2.2 + 1))
    ∧ (switch_to_next_model names { s with idx := 0 }).idx = 1
    ∧ (switch_to_next_model names { s with idx := 0 }).counts (names.getD 1 [])
        = s.counts (names.getD 1 []) + 1 := by
  have hmod : (0 + 1) % names.length = 1 := Nat.mod_eq_of_lt (by omega)
  refine ⟨?_, ?_, ?_⟩
  · rw [show transcribe_audio names (f + 1) s names.length (.raise msg :: rest)
        = if isQuotaError msg then
            (if names.length < names.length then
              (transcribe_audio names f (switch_to_next_model names s)
                  (names.length + 1) rest).map (fun r => (r.1, r.2.1, r.2.2 + 1))
            else
              (transcribe_audio names f
                  (switch_to_next_model names { s with idx := 0 }) 0 rest).map
                (fun r => (r.1, r.2.1, r.2.2 + 1)))
          else some (none, s, 0) from rfl]
    rw [if_pos hq, if_neg (lt_irrefl _)]
  · show (0 + 1) % names.length = 1
    exact hmod
  · show (if names.getD 1 [] = names.getD ((0 + 1) % names.length) []
        then s.counts (names.getD 1 []) + 1 else s.counts (names.getD 1 []))
      = s.counts (names.getD 1 []) + 1
    rw [hmod, if_pos rfl]

/-- Witness for C2: the concrete five-model list, exhausted at attempt 5. -/
theorem c2_exhausted_reset_witness :
    transcribe_audio modelNames (1 + 1) { idx := 4, counts := fun _ => 0 }
        modelNames.length (.raise ("429".data) :: [.success ("ok".data)])
      = (transcribe_audio modelNames 1
            (switch_to_next_model modelNames
              { ({ idx := 4, counts := fun _ => 0 } : RotState) with idx := 0 }) 0
            [.success ("ok".data)]).map
          (fun r => (r.1, r.2.1, r.2.2 + 1))
    ∧ (switch_to_next_model modelNames
        { ({ idx := 4, counts := fun _ => 0 } : RotState) with idx := 0 }).idx = 1
    ∧ (switch_to_next_model modelNames
        { ({ idx := 4, counts := fun _ => 0 } : RotState) with idx := 0 }).counts
          (modelNames.getD 1 [])
        = ({ idx := 4, counts := fun _ => 0 } : RotState).counts (modelNames.getD 1 []) + 1 :=
  c2_exhausted_reset modelNames 1 { idx := 4, counts := fun _ => 0 }
    [.success ("ok".data)] ("429".data) (by decide) (by decide)

/-- Counterexample for C2 as stated: after exhaustion the retry succeeds
under rotation index 1 (the second descriptor), not index 0 (the first). -/
theorem c2_counterexample :
    (transcribe_audio modelNames 2 { idx := 4, counts := fun _ => 0 } 5
        [.raise ("429".data), .success ("ok".data)]).map
      (fun r => (r.1, r.2.1.idx, r.2.2))
      = some (some ("ok".data), 1, 1)
    ∧ (1 : Nat) ≠ 0 :=
  ⟨rfl, by decide⟩

/-- Claim C3 (amended): `normalize` is idempotent on every input whose
normalized form contains no artifact substring and no asterisk.  (In
general a second pass can remove artifact occurrences newly assembled by
the whitespace collapse, so unconditional idempotence fails; see the
counterexample.) -/
theorem c3_normalize_idem (x : List Char)
    (h1 : ∀ a ∈ artifacts, occursIn a (normalize x) = false)
    (h2 : occursIn ['*', '*'] (normalize x) = false)
    (h3 : occursIn ['*'] (normalize x) = false) :
    normalize (normalize x) = normalize x := by
  have ha : removeArtifacts (normalize x) = normalize x :=
    foldl_replace_id artifacts (normalize x) h1
  have hstep : normalize (normalize x) = collapseWs (normalize x) := by
    show collapseWs
        (replaceAll ['*'] [] (replaceAll ['*', '*'] [] (removeArtifacts (normalize x))))
      = collapseWs (normalize x)
    rw [ha, replaceAll_not_occurs _ _ _ h2, replaceAll_not_occurs _ _ _ h3]
  rw [hstep]
  show collapseWs (collapseWs (replaceAll ['*'] [] (replaceAll ['*', '*'] [] (removeArtifacts x))))
    = normalize x
  rw [collapseWs_idem]
  rfl

/-- Witness for C3: a concrete artifact-free input. -/
theorem c3_normalize_idem_witness :
    (∀ a ∈ artifacts, occursIn a (normalize ("hello world".data)) = false)
    ∧ occursIn ['*', '*'] (normalize ("hello world".data)) = false
    ∧ occursIn ['*'] (normalize ("hello world".data)) = false
    ∧ normalize (normalize ("hello world".data)) = normalize ("hello world".data) :=
  ⟨by decide, by decide, by decide,
    c3_normalize_idem ("hello world".data) (by decide) (by decide) (by decide)⟩

/-- Counterexample for C3 as stated: collapsing the double space in
`"Thank you for  watching"` assembles the artifact
`"Thank you for watching"`, which the second pass removes. -/
theorem c3_counterexample :
    normalize (normalize ("Thank you for  watching".data))
      ≠ normalize ("Thank you for  watching".data) := by decide

/-- Claim C4 (amended): with `strict=false` the annotator emits exactly one
`processed_words` entry per input token, but each marked entry
`"[cs] word"` contains a space, so the output's whitespace-delimited token
count equals the input token count PLUS the number of tokens classified
foreign (one extra `[cs]` token each), not the input token count. -/
theorem c4_token_count (text : List Char) :
    (splitWs (detect_code_switching text false)).length
      = (splitWs text).length
        + (splitWs text).countP (isMarkedWord swahiliCommon3 engWords3) := by
  rw [detect_tokens text]
  exact flatMap_mark_length swahiliCommon3 engWords3 (splitWs text)

/-- Counterexample for C4 as stated: `"taxi"` is classified foreign (it
contains `x`), so the one-token input produces the two-token output
`"[cs] taxi"`. -/
theorem c4_counterexample :
    (splitWs (detect_code_switching ("taxi".data) false)).length = 2
    ∧ (splitWs ("taxi".data)).length = 1
    ∧ (splitWs (detect_code_switching ("taxi".data) false)).length
        ≠ (splitWs ("taxi".data)).length := by decide

/-- Claim C5: for every processing unit in which the audio URL was found
and the download succeeded, `process_audio` reaches the `try/finally` and
calls `os.unlink` on the temp file exactly once, on every exit path —
whatever transcription, annotation, delivery or the review wait do,
including escaping exceptions. -/
theorem c5_cleanup_once (u p : List Char) (tr : StepRes (Option (List Char)))
    (ins : List Char → StepRes Bool) (wait : StepRes Bool) :
    (process_audio (some u) (some p) tr ins wait).unlinks = 1 := rfl

/-- Claim C6 (amended): when the bounded review wait elapses with no
submission signal it returns `false`, the unit is marked failed
(`process_audio` returns `False`), and the run then asks the operator
whether to retry: it continues to the next unit if the operator consents
and ends gracefully (reason `declined`) otherwise — it does not continue
unconditionally. -/
theorem c6_timeout (k : Nat) (t u p : List Char) (rest : List IterOut) :
    wait_for_submit (List.replicate k .noChange) = false
    ∧ (process_audio (some u) (some p) (.ret (some t)) (fun _ => .ret true)
        (.ret (wait_for_submit (List.replicate k .noChange)))).res = .ret false
    ∧ runLoop (.okFalse true :: rest) = ((runLoop rest).1 + 1, (runLoop rest).2)
    ∧ runLoop (.okFalse false :: rest) = (1, .declined) := by
  have hwait : ∀ n, wait_for_submit (List.replicate n PollObs.noChange) = false := by
    intro n
    induction n with
    | zero => rfl
    | succ n ih => exact ih
  refine ⟨hwait k, ?_, rfl, rfl⟩
  rw [hwait k]
  rfl

/-- Counterexample for C6 as stated: after a failed unit (e.g. a review
timeout) with the operator declining the retry prompt, the run terminates;
the second unit of the trace is never attempted. -/
theorem c6_counterexample :
    runLoop [.okFalse false, .okTrue] = (1, .declined)
    ∧ (runLoop [.okFalse false, .okTrue]).1 ≠ 2 := by decide

/-- Claim C7 (amended): `self.audio_count += 1` is the first statement of
`process_audio`, so the processed-unit count is incremented by exactly 1 at
the START of every processing unit regardless of outcome; after a run it
equals the number of units attempted, not the number that completed
successfully. -/
theorem c7_count_delta (url dl : Option (List Char))
    (tr : StepRes (Option (List Char))) (ins : List Char → StepRes Bool)
    (wait : StepRes Bool) :
    (process_audio url dl tr ins wait).countDelta = 1 := by
  cases url <;> cases dl <;> rfl

/-- Counterexample for C7 as stated: a unit that fails before any audio is
even acquired still increments the counter by 1 (the claim implies no
increment for an unsuccessful unit). -/
theorem c7_counterexample :
    (process_audio none none (.ret none) (fun _ => .ret false) (.ret false)).res
        = .ret false
    ∧ (process_audio none none (.ret none) (fun _ => .ret false) (.ret false)).countDelta = 1
    ∧ (1 : Nat) ≠ 0 :=
  ⟨rfl, rfl, by decide⟩

/-- Claim C8 (amended): on the concrete input
`"Here is the transcription: Niko fine leo [Music]"`, `normalize` returns
`"Niko fine leo"`, and annotating that with `strict=false` returns it
UNCHANGED: `"fine"` matches no foreign indicator (it is not in the
function-word list, has no listed suffix and no `x`/`q`), and `"leo"`
passes through as a native stop-word. -/
theorem c8_example :
    normalize ("Here is the transcription: Niko fine leo [Music]".data)
        = ("Niko fine leo".data)
    ∧ detect_code_switching ("Niko fine leo".data) false = ("Niko fine leo".data)
    ∧ isForeign engWords3 (cleanWord ("fine".data)) = false
    ∧ swahiliCommon3.contains (cleanWord ("leo".data)) = true := by
  refine ⟨by decide, by decide, by decide, by decide⟩

/-- Counterexample for C8 as stated: the annotated result is not
`"Niko [cs] fine leo"`. -/
theorem c8_counterexample :
    detect_code_switching
        (normalize ("Here is the transcription: Niko fine leo [Music]".data)) false
      ≠ ("Niko [cs] fine leo".data) := by decide

/-- Claim C9 (amended): every whitespace-delimited token of the
`strict=false` output is either the literal `"[cs]"` marker or an input
token copied unchanged; and provided no input token is itself the literal
`"[cs]"`, deleting every `"[cs]"` token from the output yields exactly the
input token sequence in order.  (An input token equal to `"[cs]"` is passed
through unmarked and would be deleted with the markers; see the
counterexample.) -/
theorem c9_round_trip (text : List Char) :
    (∀ t ∈ splitWs (detect_code_switching text false), t = csMark ∨ t ∈ splitWs text)
    ∧ (csMark ∉ splitWs text →
        (splitWs (detect_code_switching text false)).filter (fun t => !(t == csMark))
          = splitWs text) := by
  constructor
  · intro t ht
    rw [detect_tokens text] at ht
    exact flatMap_mark_mem swahiliCommon3 engWords3 (splitWs text) t ht
  · intro h
    rw [detect_tokens text]
    exact flatMap_mark_filter swahiliCommon3 engWords3 (splitWs text) h

/-- Witness for C9: a concrete input with a marked token round-trips. -/
theorem c9_round_trip_witness :
    csMark ∉ splitWs ("Niko na taxi hapa".data)
    ∧ (splitWs (detect_code_switching ("Niko na taxi hapa".data) false)).filter
        (fun t => !(t == csMark))
      = splitWs ("Niko na taxi hapa".data) :=
  ⟨by decide, (c9_round_trip ("Niko na taxi hapa".data)).2 (by decide)⟩

/-- Counterexample for C9 as stated: on input `"[cs]"` the (unmarked)
output token `"[cs]"` is deleted by the round-trip, which then returns the
empty sequence instead of the input. -/
theorem c9_counterexample :
    (splitWs (detect_code_switching ("[cs]".data) false)).filter (fun t => !(t == csMark))
      ≠ splitWs ("[cs]".data) := by decide

/-- Claim C10: an exception raised during a transcription attempt triggers
the quota path (model switch, cooldown, retry with incremented attempt
counter) iff its lowercased message contains one of `"rate limit"`,
`"429"`, `"quota"`, `"resource_exhausted"`; every other exception makes the
call return `None` immediately, with zero switches, the rotation state
unchanged, and the rest of the trace unconsumed. -/
theorem c10_quota_classification (names : List (List Char)) (msg : List Char)
    (f : Nat) (s : RotState) (retry : Nat) (rest : List Attempt) :
    ((occursIn ("rate limit".data) (lowerStr msg)
        || occursIn ("429".data) (lowerStr msg)
        || occursIn ("quota".data) (lowerStr msg)
        || occursIn ("resource_exhausted".data) (lowerStr msg)) = false →
      transcribe_audio names (f + 1) s retry (.raise msg :: rest) = some (none, s, 0))
    ∧ ((occursIn ("rate limit".data) (lowerStr msg)
        || occursIn ("429".data) (lowerStr msg)
        || occursIn ("quota".data) (lowerStr msg)
        || occursIn ("resource_exhausted".data) (lowerStr msg)) = true →
      retry < names.length →
      transcribe_audio names (f + 1) s retry (.raise msg :: rest)
        = (transcribe_audio names f (switch_to_next_model names s) (retry + 1) rest).map
            (fun r => (r.1, r.2.1, r.2.2 + 1))) := by
  have hunfold : transcribe_audio names (f + 1) s retry (.raise msg :: rest)
      = if isQuotaError msg then
          (if retry < names.length then
            (transcribe_audio names f (switch_to_next_model names s) (retry + 1) rest).map
              (fun r => (r.1, r.2.1, r.2.2 + 1))
          else
            (transcribe_audio names f
                (switch_to_next_model names { s with idx := 0 }) 0 rest).map
              (fun r => (r.1, r.2.1, r.2.2 + 1)))
        else some (none, s, 0) := rfl
  constructor
  · intro h
    have hq : isQuotaError msg = false := h
    rw [hunfold, hq]
    simp
  · intro h hlt
    have hq : isQuotaError msg = true := h
    rw [hunfold, hq]
    simp [hlt]

/-- Witness for C10: `"Rate Limit hit"` takes the switch-and-retry path,
`"file not found"` fails immediately with the state unchanged. -/
theorem c10_quota_classification_witness :
    ((occursIn ("rate limit".data) (lowerStr ("Rate Limit hit".data))
        || occursIn ("429".data) (lowerStr ("Rate Limit hit".data))
        || occursIn ("quota".data) (lowerStr ("Rate Limit hit".data))
        || occursIn ("resource_exhausted".data) (lowerStr ("Rate Limit hit".data)))
      = true)
    ∧ transcribe_audio modelNames (1 + 1) { idx := 0, counts := fun _ => 0 } 0
        (.raise ("Rate Limit hit".data) :: [.success ("x".data)])
      = (transcribe_audio modelNames 1
            (switch_to_next_model modelNames { idx := 0, counts := fun _ => 0 }) 1
            [.success ("x".data)]).map
          (fun r => (r.1, r.2.1, r.2.2 + 1))
    ∧ ((occursIn ("rate limit".data) (lowerStr ("file not found".data))
        || occursIn ("429".data) (lowerStr ("file not found".data))
        || occursIn ("quota".data) (lowerStr ("file not found".data))
        || occursIn ("resource_exhausted".data) (lowerStr ("file not found".data)))
      = false)
    ∧ transcribe_audio modelNames (1 + 1) { idx := 0, counts := fun _ => 0 } 0
        (.raise ("file not found".data) :: [.success ("x".data)])
      = some (none, { idx := 0, counts := fun _ => 0 }, 0) :=
  ⟨by decide,
   (c10_quota_classification modelNames ("Rate Limit hit".data) 1
      { idx := 0, counts := fun _ => 0 } 0 [.success ("x".data)]).2 (by decide) (by decide),
   by decide,
   (c10_quota_classification modelNames ("file not found".data) 1
      { idx := 0, counts := fun _ => 0 } 0 [.success ("x".data)]).1 (by decide)⟩

end Spec
